import Mathlib

set_option maxRecDepth 4000

/-!
Shallow embedding of the OneLauncher desktop command facade
(`apps/desktop/src/api/commands.rs`), covering the `auth_login`
authentication flow, `run_cluster`, and the process-registry
`terminate` operation behind `kill_process`.

The `auth_login` polling loop is modelled over an environment `Env`
that records, per poll tick `n`, what the browser surface reports
(title readability, current URL), the outcome of close operations, and
the wall-clock time elapsed since the attempt began.  The 50 ms sleep
between ticks is captured by the `elapsed_step` field: consecutive
loop-head clock readings are at least 50 ms apart.
-/

/-- Milliseconds in the fixed maximum login lifetime: `chrono::Duration::minutes(10)`. -/
def deadlineMs : Nat := 600000

/-- Milliseconds slept between poll ticks: `tokio::time::sleep(Duration::from_millis(50))`. -/
def pollIntervalMs : Nat := 50

/-- The provider's redirect-completion origin tested with `starts_with` in the loop. -/
def redirectOrigin : String := "https://login.live.com/oauth20_desktop.srf"

/-- Model of Rust `str::starts_with`: the needle's characters are a prefix of
the haystack's. -/
def rustStartsWith (s p : String) : Bool := p.data.isPrefixOf s.data

/-- Error message produced when `flow.redirect_uri.parse()` fails. -/
def parseErrMsg : String := "failed to parse auth redirect url"

/-- Opaque model of `MinecraftCredentials`: the launcher code never inspects it,
only passes it through, so a single identifying field suffices. -/
structure Credentials where
  accountId : Nat
deriving DecidableEq, Repr

/-- Model of the value returned by `minecraft::begin()`: the redirect target the
surface is pointed at, and the session's opaque exchange token consumed by
`minecraft::finish`. -/
structure AuthFlow where
  redirect_uri : String
  exchangeToken : String
deriving DecidableEq, Repr

/-- Model of a parsed URL as `auth_login` consumes it: `as_str()` and `query_pairs()`. -/
structure Url where
  text : String
  queryPairs : List (String × String)
deriving DecidableEq, Repr

/-- Result type of `auth_login`: `Result<Option<MinecraftCredentials>, String>`. -/
abbrev LoginResult := Except String (Option Credentials)

/-- Observable effects of one `auth_login` run, in order of occurrence. -/
inductive AuthEvent where
  | closedPrior
  | opened
  | closedSurface
  | exchanged (code : String) (token : String)
deriving DecidableEq, Repr

/-- Per-tick environment of the polling loop.  `elapsed n` is the value of
`chrono::Utc::now() - now` in milliseconds read at the head of tick `n`;
`elapsed_step` records that the 50 ms sleep separates consecutive reads.
`titleErr n` is `win.title().is_err()` at tick `n`; `urlAt n` is `win.url()`
at tick `n`; `closeAt n` is the error, if any, of `win.close()` performed at
tick `n`; `closeFinal` is the error, if any, of the post-loop `win.close()`;
`finish` is `minecraft::finish(code, flow)`. -/
structure Env where
  elapsed : Nat → Nat
  elapsed_step : ∀ n, elapsed n + pollIntervalMs ≤ elapsed (n + 1)
  titleErr : Nat → Bool
  urlAt : Nat → Except String Url
  closeAt : Nat → Option String
  closeFinal : Option String
  finish : String → AuthFlow → Except String Credentials

/-- Extraction of the `code` query parameter:
`query_pairs().find(|x| x.0 == "code")`, yielding the pair's value. -/
def findCode (ps : List (String × String)) : Option String :=
  (ps.find? fun p => p.1 == "code").map fun p => p.2

/-- One head-check plus body of the `while` loop at tick `n`.  `none` means the
loop sleeps and continues; `some (r, evs)` means `auth_login` returns `r`
after emitting the events `evs` during this tick. -/
def tickOutcome (env : Env) (flow : AuthFlow) (n : Nat) :
    Option (LoginResult × List AuthEvent) :=
  if env.elapsed n < deadlineMs then
    if env.titleErr n then
      some (Except.ok none, [])
    else
      match env.urlAt n with
      | Except.error e => some (Except.error e, [])
      | Except.ok u =>
        if rustStartsWith u.text redirectOrigin then
          match findCode u.queryPairs with
          | some code =>
            match env.closeAt n with
            | some e => some (Except.error e, [])
            | none =>
              match env.finish code flow with
              | Except.error e =>
                some (Except.error e,
                  [AuthEvent.closedSurface, AuthEvent.exchanged code flow.exchangeToken])
              | Except.ok v =>
                some (Except.ok (some v),
                  [AuthEvent.closedSurface, AuthEvent.exchanged code flow.exchangeToken])
          | none => none
        else none
  else
    match env.closeFinal with
    | some e => some (Except.error e, [])
    | none => some (Except.ok none, [AuthEvent.closedSurface])

theorem elapsed_lt_of_tickOutcome_none (env : Env) (flow : AuthFlow) (n : Nat)
    (h : tickOutcome env flow n = none) : env.elapsed n < deadlineMs := by
  by_contra hlt
  unfold tickOutcome at h
  rw [if_neg hlt] at h
  cases henv : env.closeFinal <;> rw [henv] at h <;> exact Option.noConfusion h

/-- The polling `while` loop of `auth_login`, starting at tick `n`.  Terminates
because each tick advances the clock by at least `pollIntervalMs`. -/
def authLoop (env : Env) (flow : AuthFlow) (n : Nat) : LoginResult × List AuthEvent :=
  match h : tickOutcome env flow n with
  | some r => r
  | none => authLoop env flow (n + 1)
termination_by deadlineMs - env.elapsed n
decreasing_by
  have h1 := elapsed_lt_of_tickOutcome_none env flow n h
  have h2 := env.elapsed_step n
  simp only [pollIntervalMs] at h2
  simp only [deadlineMs] at h1 ⊢
  omega

theorem authLoop_eq_some (env : Env) (flow : AuthFlow) (n : Nat)
    (r : LoginResult × List AuthEvent) (h : tickOutcome env flow n = some r) :
    authLoop env flow n = r := by
  rw [authLoop]
  split
  · rename_i r' hr
    rw [h] at hr
    exact (Option.some.inj hr).symm
  · rename_i hr
    rw [h] at hr
    exact absurd hr (by simp)

theorem authLoop_eq_none (env : Env) (flow : AuthFlow) (n : Nat)
    (h : tickOutcome env flow n = none) :
    authLoop env flow n = authLoop env flow (n + 1) := by
  rw [authLoop]
  split
  · rename_i r' hr
    rw [h] at hr
    exact absurd hr (by simp)
  · rfl

theorem authLoop_skip (env : Env) (flow : AuthFlow) :
    ∀ d n, (∀ m, m < d → tickOutcome env flow (n + m) = none) →
      authLoop env flow n = authLoop env flow (n + d) := by
  intro d
  induction d with
  | zero => intro n _; rfl
  | succ k ih =>
    intro n h
    have h0 : tickOutcome env flow n = none := by
      have := h 0 (Nat.succ_pos k)
      simpa using this
    rw [authLoop_eq_none env flow n h0]
    have hrest : ∀ m, m < k → tickOutcome env flow (n + 1 + m) = none := by
      intro m hm
      have := h (m + 1) (Nat.succ_lt_succ hm)
      have harith : n + (m + 1) = n + 1 + m := by omega
      rw [harith] at this
      exact this
    have := ih (n + 1) hrest
    have harith2 : n + 1 + k = n + (k + 1) := by omega
    rw [harith2] at this
    exact this

theorem authLoop_first (env : Env) (flow : AuthFlow) :
    ∀ d n, tickOutcome env flow (n + d) ≠ none →
      ∃ m r, n ≤ m ∧ m ≤ n + d ∧ tickOutcome env flow m = some r ∧
        authLoop env flow n = r := by
  intro d
  induction d with
  | zero =>
    intro n h
    rcases Option.ne_none_iff_exists'.mp (by simpa using h) with ⟨r, hr⟩
    exact ⟨n, r, Nat.le_refl n, by omega, hr, authLoop_eq_some env flow n r hr⟩
  | succ k ih =>
    intro n h
    cases h0 : tickOutcome env flow n with
    | some r => exact ⟨n, r, Nat.le_refl n, by omega, h0, authLoop_eq_some env flow n r h0⟩
    | none =>
      have h' : tickOutcome env flow (n + 1 + k) ≠ none := by
        have harith : n + 1 + k = n + (k + 1) := by omega
        rw [harith]
        exact h
      rcases ih (n + 1) h' with ⟨m, r, hm, hm2, hr, hl⟩
      refine ⟨m, r, ?_, ?_, hr, ?_⟩
      · omega
      · omega
      · rw [authLoop_eq_none env flow n h0]
        exact hl

theorem elapsed_lower (env : Env) : ∀ n, pollIntervalMs * n ≤ env.elapsed n := by
  intro n
  induction n with
  | zero => exact Nat.zero_le _
  | succ k ih =>
    have := env.elapsed_step k
    calc pollIntervalMs * (k + 1) = pollIntervalMs * k + pollIntervalMs := by ring
    _ ≤ env.elapsed k + pollIntervalMs := by omega
    _ ≤ env.elapsed (k + 1) := this

theorem tickOutcome_ne_none_of_deadline (env : Env) (flow : AuthFlow) (n : Nat)
    (h : deadlineMs ≤ env.elapsed n) : tickOutcome env flow n ≠ none := by
  unfold tickOutcome
  rw [if_neg (by omega)]
  cases env.closeFinal <;> simp

theorem exists_deadline_tick (env : Env) (flow : AuthFlow) :
    ∃ m, m ≤ deadlineMs / pollIntervalMs ∧ tickOutcome env flow m ≠ none := by
  refine ⟨deadlineMs / pollIntervalMs, Nat.le_refl _, ?_⟩
  apply tickOutcome_ne_none_of_deadline
  have := elapsed_lower env (deadlineMs / pollIntervalMs)
  have hmul : pollIntervalMs * (deadlineMs / pollIntervalMs) = deadlineMs := by
    simp [pollIntervalMs, deadlineMs]
  omega

/-- Classification of the ticks on which the loop returns a successful absent
result: either the surface title became unreadable before the deadline
(cancellation), or the deadline passed and the final close succeeded (expiry). -/
theorem tickOutcome_ok_none (env : Env) (flow : AuthFlow) (n : Nat)
    (evs : List AuthEvent)
    (h : tickOutcome env flow n = some (Except.ok none, evs)) :
    (env.elapsed n < deadlineMs ∧ env.titleErr n = true ∧ evs = []) ∨
      (deadlineMs ≤ env.elapsed n ∧ env.closeFinal = none ∧
        evs = [AuthEvent.closedSurface]) := by
  unfold tickOutcome at h
  split at h
  · rename_i hd
    split at h
    · rename_i ht
      left
      exact ⟨hd, ht, (Prod.mk.inj (Option.some.inj h)).2.symm⟩
    · split at h
      · simp at h
      · split at h
        · split at h
          · split at h
            · simp at h
            · split at h
              · simp at h
              · simp at h
          · simp at h
        · simp at h
  · rename_i hd
    split at h
    · simp at h
    · rename_i hcf
      right
      exact ⟨by omega, hcf, (Prod.mk.inj (Option.some.inj h)).2.symm⟩

theorem tickOutcome_cancel (env : Env) (flow : AuthFlow) (n : Nat)
    (hd : env.elapsed n < deadlineMs) (ht : env.titleErr n = true) :
    tickOutcome env flow n = some (Except.ok none, []) := by
  simp [tickOutcome, hd, ht]

theorem tickOutcome_success (env : Env) (flow : AuthFlow) (n : Nat) (u : Url)
    (code : String) (v : Credentials)
    (hd : env.elapsed n < deadlineMs) (ht : env.titleErr n = false)
    (hu : env.urlAt n = Except.ok u)
    (hs : rustStartsWith u.text redirectOrigin = true)
    (hc : findCode u.queryPairs = some code)
    (hcl : env.closeAt n = none)
    (hf : env.finish code flow = Except.ok v) :
    tickOutcome env flow n =
      some (Except.ok (some v),
        [AuthEvent.closedSurface, AuthEvent.exchanged code flow.exchangeToken]) := by
  simp [tickOutcome, hd, ht, hu, hs, hc, hcl, hf]

theorem tickOutcome_urlErr (env : Env) (flow : AuthFlow) (n : Nat) (e : String)
    (hd : env.elapsed n < deadlineMs) (ht : env.titleErr n = false)
    (hu : env.urlAt n = Except.error e) :
    tickOutcome env flow n = some (Except.error e, []) := by
  simp [tickOutcome, hd, ht, hu]

theorem tickOutcome_finishErr (env : Env) (flow : AuthFlow) (n : Nat) (u : Url)
    (code : String) (e : String)
    (hd : env.elapsed n < deadlineMs) (ht : env.titleErr n = false)
    (hu : env.urlAt n = Except.ok u)
    (hs : rustStartsWith u.text redirectOrigin = true)
    (hc : findCode u.queryPairs = some code)
    (hcl : env.closeAt n = none)
    (hf : env.finish code flow = Except.error e) :
    tickOutcome env flow n =
      some (Except.error e,
        [AuthEvent.closedSurface, AuthEvent.exchanged code flow.exchangeToken]) := by
  simp [tickOutcome, hd, ht, hu, hs, hc, hcl, hf]

theorem tickOutcome_continue_noOrigin (env : Env) (flow : AuthFlow) (n : Nat) (u : Url)
    (hd : env.elapsed n < deadlineMs) (ht : env.titleErr n = false)
    (hu : env.urlAt n = Except.ok u)
    (hs : rustStartsWith u.text redirectOrigin = false) :
    tickOutcome env flow n = none := by
  simp [tickOutcome, hd, ht, hu, hs]

theorem tickOutcome_continue_noCode (env : Env) (flow : AuthFlow) (n : Nat) (u : Url)
    (hd : env.elapsed n < deadlineMs) (ht : env.titleErr n = false)
    (hu : env.urlAt n = Except.ok u)
    (hs : rustStartsWith u.text redirectOrigin = true)
    (hc : findCode u.queryPairs = none) :
    tickOutcome env flow n = none := by
  simp [tickOutcome, hd, ht, hu, hs, hc]

theorem tickOutcome_expired_ok (env : Env) (flow : AuthFlow) (n : Nat)
    (hd : deadlineMs ≤ env.elapsed n) (hcf : env.closeFinal = none) :
    tickOutcome env flow n = some (Except.ok none, [AuthEvent.closedSurface]) := by
  have hd' : ¬ env.elapsed n < deadlineMs := by omega
  simp [tickOutcome, hd', hcf]

theorem tickOutcome_expired_err (env : Env) (flow : AuthFlow) (n : Nat) (e : String)
    (hd : deadlineMs ≤ env.elapsed n) (hcf : env.closeFinal = some e) :
    tickOutcome env flow n = some (Except.error e, []) := by
  have hd' : ¬ env.elapsed n < deadlineMs := by omega
  simp [tickOutcome, hd', hcf]

theorem authLoop_from_zero (env : Env) (flow : AuthFlow) (n : Nat)
    (h : ∀ m, m < n → tickOutcome env flow m = none) :
    authLoop env flow 0 = authLoop env flow n := by
  have := authLoop_skip env flow n 0 (fun m hm => by simpa using h m hm)
  simpa using this

/-- Outcomes of the steps of `auth_login` preceding the polling loop:
`minecraft::begin()`, the presence and close outcome of a prior window with
label `login`, `redirect_uri.parse()`, `WebviewWindowBuilder::build()`, and
`request_user_attention`. -/
structure PreEnv where
  beginFlow : Except String AuthFlow
  priorWin : Bool
  priorCloseErr : Option String
  parseOk : Bool
  buildErr : Option String
  attentionErr : Option String

/-- The window-opening section of `auth_login`: URL parse, window build,
attention request, then the polling loop.  `evs` carries events already
emitted (the close of a prior login window, if any). -/
def authOpen (pre : PreEnv) (env : Env) (flow : AuthFlow) (evs : List AuthEvent) :
    LoginResult × List AuthEvent :=
  if pre.parseOk then
    match pre.buildErr with
    | some e => (Except.error e, evs)
    | none =>
      match pre.attentionErr with
      | some e => (Except.error e, evs ++ [AuthEvent.opened])
      | none =>
        let r := authLoop env flow 0
        (r.1, evs ++ AuthEvent.opened :: r.2)
  else (Except.error parseErrMsg, evs)

/-- The whole `auth_login` command: begin the flow, close any prior window
with label `login`, open the surface, and poll. -/
def authLogin (pre : PreEnv) (env : Env) : LoginResult × List AuthEvent :=
  match pre.beginFlow with
  | Except.error e => (Except.error e, [])
  | Except.ok flow =>
    if pre.priorWin then
      match pre.priorCloseErr with
      | some e => (Except.error e, [])
      | none => authOpen pre env flow [AuthEvent.closedPrior]
    else authOpen pre env flow []

/-- All pre-loop steps of `auth_login` succeed and the begun flow is `flow`. -/
def preOk (pre : PreEnv) (flow : AuthFlow) : Prop :=
  pre.beginFlow = Except.ok flow ∧ pre.priorCloseErr = none ∧ pre.parseOk = true ∧
    pre.buildErr = none ∧ pre.attentionErr = none

/-- Events emitted before the surface opens: the prior window close, if one existed. -/
def preEvents (pre : PreEnv) : List AuthEvent :=
  if pre.priorWin then [AuthEvent.closedPrior] else []

/-- The code-for-credentials exchange calls recorded in an event trace, each
with the code and exchange token passed to `minecraft::finish`. -/
def exchangeCalls (evs : List AuthEvent) : List (String × String) :=
  evs.filterMap fun e =>
    match e with
    | AuthEvent.exchanged c t => some (c, t)
    | _ => none

theorem authLogin_of_preOk (pre : PreEnv) (env : Env) (flow : AuthFlow)
    (hpre : preOk pre flow) :
    authLogin pre env =
      ((authLoop env flow 0).1,
        preEvents pre ++ AuthEvent.opened :: (authLoop env flow 0).2) := by
  obtain ⟨h1, h2, h3, h4, h5⟩ := hpre
  cases hw : pre.priorWin <;>
    simp [authLogin, authOpen, preEvents, h1, h2, h3, h4, h5, hw]

/-- A loop whose overall value is a successful absent result must have ended on
a cancellation tick or on an expiry tick with a successful final close. -/
theorem authLoop_fst_ok_none (env : Env) (flow : AuthFlow)
    (h : (authLoop env flow 0).1 = Except.ok none) :
    ∃ m, (env.elapsed m < deadlineMs ∧ env.titleErr m = true) ∨
      (deadlineMs ≤ env.elapsed m ∧ env.closeFinal = none) := by
  obtain ⟨m0, _, hm0⟩ := exists_deadline_tick env flow
  obtain ⟨m, r, _, _, hr, hl⟩ := authLoop_first env flow m0 0 (by simpa using hm0)
  obtain ⟨r1, r2⟩ := r
  rw [hl] at h
  simp only at h
  subst h
  rcases tickOutcome_ok_none env flow m r2 hr with hcase | hcase
  · exact ⟨m, Or.inl ⟨hcase.1, hcase.2.1⟩⟩
  · exact ⟨m, Or.inr ⟨hcase.1, hcase.2.1⟩⟩

/-- Model of `tokio::process::Child` as `run_cluster` reads it: only the
optional OS process id is consumed, via `id().unwrap_or(0)`. -/
structure ChildProcess where
  id : Option Nat
deriving DecidableEq, Repr

/-- Contents of the process lock returned by `cluster::run`: the generated
running-instance identifier and the current child process. -/
structure ProcessHandle where
  uuid : Nat
  current_child : ChildProcess
deriving DecidableEq, Repr

/-- The `run_cluster` command over the outcomes of its two collaborator calls:
`ClusterPath::find_by_uuid` and `cluster::run`.  On success it returns the
instance identifier paired with `current_child.id().unwrap_or(0)`. -/
def run_cluster (findRes : Except String Unit)
    (runRes : Except String ProcessHandle) : Except String (Nat × Nat) :=
  match findRes with
  | Except.error e => Except.error e
  | Except.ok _ =>
    match runRes with
    | Except.error e => Except.error e
    | Except.ok c => Except.ok (c.uuid, c.current_child.id.getD 0)

/-- One entry of the Process Registry: a running instance with its owning
cluster path. -/
structure RunningInstance where
  clusterPath : String
  pid : Nat
deriving DecidableEq, Repr

/-- Error taxonomy of the registry terminate operation. -/
inductive RegError where
  | notFound
deriving DecidableEq, Repr

/-- Modelled from the spec: the body of `processor::kill_by_uuid`, reached
through the `kill_process` command, is not part of the given source surface.
Per the spec's Process Registry contract, `terminate` looks the identifier up
in the registry table, requests OS-level termination and removes the entry
when present, and returns `NotFound` leaving the registry unchanged when
absent. -/
def terminate (reg : List (Nat × RunningInstance)) (uuid : Nat) :
    Except RegError Unit × List (Nat × RunningInstance) :=
  if (reg.find? fun e => e.1 == uuid).isSome then
    (Except.ok (), reg.filter fun e => e.1 != uuid)
  else
    (Except.error RegError.notFound, reg)

/-- C1: if the surface reaches a URL on the redirect-completion origin carrying
a `code` query parameter at some poll tick, `auth_login` closes the surface,
performs exactly one exchange call with that code and the session's exchange
token, and on exchange success returns the credentials as `Some`. -/
theorem auth_login_code_exchange
    (pre : PreEnv) (env : Env) (flow : AuthFlow) (n : Nat) (u : Url) (code : String)
    (creds : Credentials)
    (hpre : preOk pre flow)
    (hquiet : ∀ m, m < n → tickOutcome env flow m = none)
    (hd : env.elapsed n < deadlineMs)
    (ht : env.titleErr n = false)
    (hu : env.urlAt n = Except.ok u)
    (hs : rustStartsWith u.text redirectOrigin = true)
    (hc : findCode u.queryPairs = some code)
    (hcl : env.closeAt n = none)
    (hf : env.finish code flow = Except.ok creds) :
    authLogin pre env =
      (Except.ok (some creds),
        preEvents pre ++ AuthEvent.opened :: AuthEvent.closedSurface ::
          [AuthEvent.exchanged code flow.exchangeToken]) ∧
      exchangeCalls (authLogin pre env).2 = [(code, flow.exchangeToken)] := by
  have htick := tickOutcome_success env flow n u code creds hd ht hu hs hc hcl hf
  have hloop : authLoop env flow 0 =
      (Except.ok (some creds),
        [AuthEvent.closedSurface, AuthEvent.exchanged code flow.exchangeToken]) := by
    rw [authLoop_from_zero env flow n hquiet]
    exact authLoop_eq_some env flow n _ htick
  have hlog := authLogin_of_preOk pre env flow hpre
  rw [hlog, hloop]
  refine ⟨rfl, ?_⟩
  cases hw : pre.priorWin <;> simp [preEvents, exchangeCalls, hw]

/-- C3: if the surface is closed by the user (its title becomes unreadable)
before the redirect origin is reached and before the deadline, `auth_login`
returns a successful absent result and no exchange call is made. -/
theorem auth_login_cancelled
    (pre : PreEnv) (env : Env) (flow : AuthFlow) (n : Nat)
    (hpre : preOk pre flow)
    (hquiet : ∀ m, m < n → tickOutcome env flow m = none)
    (hd : env.elapsed n < deadlineMs)
    (ht : env.titleErr n = true) :
    authLogin pre env = (Except.ok none, preEvents pre ++ [AuthEvent.opened]) ∧
      exchangeCalls (authLogin pre env).2 = [] := by
  have htick := tickOutcome_cancel env flow n hd ht
  have hloop : authLoop env flow 0 = (Except.ok none, []) := by
    rw [authLoop_from_zero env flow n hquiet]
    exact authLoop_eq_some env flow n _ htick
  have hlog := authLogin_of_preOk pre env flow hpre
  rw [hlog, hloop]
  refine ⟨rfl, ?_⟩
  cases hw : pre.priorWin <;> simp [preEvents, exchangeCalls, hw]

/-- C9: a tick whose URL is on the redirect-completion origin but carries no
`code` query parameter neither ends the attempt nor errors: the tick outcome
is to continue, and the loop value equals the loop value from the next tick. -/
theorem auth_login_redirect_without_code
    (env : Env) (flow : AuthFlow) (n : Nat) (u : Url)
    (hd : env.elapsed n < deadlineMs)
    (ht : env.titleErr n = false)
    (hu : env.urlAt n = Except.ok u)
    (hs : rustStartsWith u.text redirectOrigin = true)
    (hc : findCode u.queryPairs = none) :
    tickOutcome env flow n = none ∧
      authLoop env flow n = authLoop env flow (n + 1) := by
  have h := tickOutcome_continue_noCode env flow n u hd ht hu hs hc
  exact ⟨h, authLoop_eq_none env flow n h⟩

/-- C10: on deadline expiry the successful absent result is conditional on the
final surface close succeeding; a failing close surfaces its error instead. -/
theorem auth_login_expiry_close
    (pre : PreEnv) (env : Env) (flow : AuthFlow) (n : Nat)
    (hpre : preOk pre flow)
    (hquiet : ∀ m, m < n → tickOutcome env flow m = none)
    (hd : deadlineMs ≤ env.elapsed n) :
    (env.closeFinal = none →
      authLogin pre env =
        (Except.ok none, preEvents pre ++ [AuthEvent.opened, AuthEvent.closedSurface])) ∧
    (∀ e, env.closeFinal = some e →
      authLogin pre env = (Except.error e, preEvents pre ++ [AuthEvent.opened])) := by
  have hlog := authLogin_of_preOk pre env flow hpre
  constructor
  · intro hcf
    have htick := tickOutcome_expired_ok env flow n hd hcf
    have hloop : authLoop env flow 0 = (Except.ok none, [AuthEvent.closedSurface]) := by
      rw [authLoop_from_zero env flow n hquiet]
      exact authLoop_eq_some env flow n _ htick
    rw [hlog, hloop]
  · intro e hcf
    have htick := tickOutcome_expired_err env flow n e hd hcf
    have hloop : authLoop env flow 0 = (Except.error e, []) := by
      rw [authLoop_from_zero env flow n hquiet]
      exact authLoop_eq_some env flow n _ htick
    rw [hlog, hloop]

/-- C2: an attempt whose surface never reaches the redirect-completion origin
and is never closed by the user stops polling at the first tick at or after
the 10-minute deadline, closes the surface, and returns a successful absent
result. -/
theorem auth_login_expired
    (pre : PreEnv) (env : Env) (flow : AuthFlow)
    (hpre : preOk pre flow)
    (ht : ∀ m, env.titleErr m = false)
    (hu : ∀ m, ∃ u, env.urlAt m = Except.ok u ∧
      rustStartsWith u.text redirectOrigin = false)
    (hcf : env.closeFinal = none) :
    ∃ n, deadlineMs ≤ env.elapsed n ∧ (∀ m, m < n → env.elapsed m < deadlineMs) ∧
      authLogin pre env =
        (Except.ok none, preEvents pre ++ [AuthEvent.opened, AuthEvent.closedSurface]) := by
  have hex : ∃ m, deadlineMs ≤ env.elapsed m := by
    refine ⟨deadlineMs / pollIntervalMs, ?_⟩
    have := elapsed_lower env (deadlineMs / pollIntervalMs)
    have hmul : pollIntervalMs * (deadlineMs / pollIntervalMs) = deadlineMs := by
      simp [pollIntervalMs, deadlineMs]
    omega
  refine ⟨Nat.find hex, Nat.find_spec hex, ?_, ?_⟩
  · intro m hm
    have := Nat.find_min hex hm
    omega
  · have hquiet : ∀ m, m < Nat.find hex → tickOutcome env flow m = none := by
      intro m hm
      have hdm : env.elapsed m < deadlineMs := by
        have := Nat.find_min hex hm
        omega
      obtain ⟨u, hum, hsm⟩ := hu m
      exact tickOutcome_continue_noOrigin env flow m u hdm (ht m) hum hsm
    have htick := tickOutcome_expired_ok env flow (Nat.find hex) (Nat.find_spec hex) hcf
    have hloop : authLoop env flow 0 = (Except.ok none, [AuthEvent.closedSurface]) := by
      rw [authLoop_from_zero env flow (Nat.find hex) hquiet]
      exact authLoop_eq_some env flow (Nat.find hex) _ htick
    rw [authLogin_of_preOk pre env flow hpre, hloop]

/-- C6: every poll tick is separated from the next by the fixed 50 ms sleep
interval, and the loop settles on the outcome of some tick no later than tick
12000 (the deadline divided by the poll interval), so the number of poll
ticks per attempt is bounded. -/
theorem auth_login_poll_bounded (env : Env) (flow : AuthFlow) :
    (∀ n, env.elapsed n + pollIntervalMs ≤ env.elapsed (n + 1)) ∧
      ∃ m r, m ≤ deadlineMs / pollIntervalMs ∧ tickOutcome env flow m = some r ∧
        authLoop env flow 0 = r := by
  refine ⟨env.elapsed_step, ?_⟩
  obtain ⟨m0, hm0le, hm0⟩ := exists_deadline_tick env flow
  obtain ⟨m, r, _, hmle, hr, hl⟩ := authLoop_first env flow m0 0 (by simpa using hm0)
  exact ⟨m, r, by omega, hr, hl⟩

/-- C4: `auth_login` distinguishes outcomes: a successful absent result arises
only from user cancellation or deadline expiry with a successful close, never
from an I/O or exchange failure; a failed surface read and a failed exchange
each surface their error to the caller. -/
theorem auth_login_error_discipline (pre : PreEnv) (env : Env) :
    (∀ evs, authLogin pre env = (Except.ok none, evs) →
      ∃ flow m, pre.beginFlow = Except.ok flow ∧
        ((env.elapsed m < deadlineMs ∧ env.titleErr m = true) ∨
          (deadlineMs ≤ env.elapsed m ∧ env.closeFinal = none))) ∧
    (∀ flow n e, preOk pre flow → (∀ m, m < n → tickOutcome env flow m = none) →
      env.elapsed n < deadlineMs → env.titleErr n = false →
      env.urlAt n = Except.error e → (authLogin pre env).1 = Except.error e) ∧
    (∀ flow n u code e, preOk pre flow →
      (∀ m, m < n → tickOutcome env flow m = none) →
      env.elapsed n < deadlineMs → env.titleErr n = false →
      env.urlAt n = Except.ok u → rustStartsWith u.text redirectOrigin = true →
      findCode u.queryPairs = some code → env.closeAt n = none →
      env.finish code flow = Except.error e →
      (authLogin pre env).1 = Except.error e) := by
  refine ⟨?_, ?_, ?_⟩
  · intro evs h
    unfold authLogin authOpen at h
    split at h
    · simp at h
    · rename_i flow hb
      split at h
      · split at h
        · simp at h
        · split at h
          · split at h
            · simp at h
            · split at h
              · simp at h
              · have hfst : (authLoop env flow 0).1 = Except.ok none :=
                  (Prod.mk.inj h).1
                obtain ⟨m, hm⟩ := authLoop_fst_ok_none env flow hfst
                exact ⟨flow, m, hb, hm⟩
          · simp at h
      · split at h
        · split at h
          · simp at h
          · split at h
            · simp at h
            · have hfst : (authLoop env flow 0).1 = Except.ok none :=
                (Prod.mk.inj h).1
              obtain ⟨m, hm⟩ := authLoop_fst_ok_none env flow hfst
              exact ⟨flow, m, hb, hm⟩
        · simp at h
  · intro flow n e hpre hquiet hd ht hurl
    have htick := tickOutcome_urlErr env flow n e hd ht hurl
    have hloop : authLoop env flow 0 = (Except.error e, []) := by
      rw [authLoop_from_zero env flow n hquiet]
      exact authLoop_eq_some env flow n _ htick
    rw [authLogin_of_preOk pre env flow hpre, hloop]
  · intro flow n u code e hpre hquiet hd ht hurl hs hc hcl hf
    have htick := tickOutcome_finishErr env flow n u code e hd ht hurl hs hc hcl hf
    have hloop : authLoop env flow 0 =
        (Except.error e,
          [AuthEvent.closedSurface, AuthEvent.exchanged code flow.exchangeToken]) := by
      rw [authLoop_from_zero env flow n hquiet]
      exact authLoop_eq_some env flow n _ htick
    rw [authLogin_of_preOk pre env flow hpre, hloop]

/-- C5: when a prior login surface exists at the start of an attempt, the new
surface is opened only after the prior one is closed: any event trace that
contains an open has the prior close strictly before it. -/
theorem auth_login_singleton_surface (pre : PreEnv) (env : Env)
    (hprior : pre.priorWin = true)
    (hopen : AuthEvent.opened ∈ (authLogin pre env).2) :
    ∃ rest,
      (authLogin pre env).2 = AuthEvent.closedPrior :: AuthEvent.opened :: rest := by
  cases hb : pre.beginFlow with
  | error e =>
    simp [authLogin, hb] at hopen
  | ok flow =>
    cases hc : pre.priorCloseErr with
    | some e =>
      simp [authLogin, hb, hprior, hc] at hopen
    | none =>
      by_cases hp : pre.parseOk
      · cases hbd : pre.buildErr with
        | some e =>
          simp [authLogin, authOpen, hb, hprior, hc, hp, hbd] at hopen
        | none =>
          cases ha : pre.attentionErr with
          | some e =>
            refine ⟨[], ?_⟩
            simp [authLogin, authOpen, hb, hprior, hc, hp, hbd, ha]
          | none =>
            refine ⟨(authLoop env flow 0).2, ?_⟩
            simp [authLogin, authOpen, hb, hprior, hc, hp, hbd, ha]
      · simp [authLogin, authOpen, hb, hprior, hc, hp] at hopen

/-- C7: a successful `run_cluster` returns the running instance's generated
identifier and `current_child.id().unwrap_or(0)`; assuming OS process ids are
nonzero when available, the pid component is `0` exactly when the underlying
process id is unavailable, acting as a sentinel rather than an error. -/
theorem run_cluster_pid_sentinel (findRes : Except String Unit) (c : ProcessHandle)
    (u p : Nat)
    (h : run_cluster findRes (Except.ok c) = Except.ok (u, p))
    (hpos : ∀ k, c.current_child.id = some k → k ≠ 0) :
    u = c.uuid ∧ p = c.current_child.id.getD 0 ∧
      (p = 0 ↔ c.current_child.id = none) := by
  cases findRes with
  | error e => exact absurd h (by simp [run_cluster])
  | ok x =>
    simp only [run_cluster] at h
    obtain ⟨h1, h2⟩ := Prod.mk.inj (Except.ok.inj h)
    refine ⟨h1.symm, h2.symm, ?_⟩
    cases hid : c.current_child.id with
    | none => simp [hid, ← h2]
    | some k =>
      have hk := hpos k hid
      simp [hid, ← h2]
      exact hk

/-- C8: terminating an identifier absent from the registry returns `NotFound`
and leaves the registry unchanged; terminating a present identifier succeeds,
and a repeated terminate of the same identifier returns `NotFound` rather
than crashing. -/
theorem terminate_notFound_idempotent
    (reg : List (Nat × RunningInstance)) (uuid : Nat) :
    ((reg.find? fun e => e.1 == uuid) = none →
      terminate reg uuid = (Except.error RegError.notFound, reg)) ∧
    (∀ inst, (uuid, inst) ∈ reg →
      (terminate reg uuid).1 = Except.ok () ∧
      (terminate (terminate reg uuid).2 uuid).1 = Except.error RegError.notFound) := by
  constructor
  · intro h
    simp [terminate, h]
  · intro inst hmem
    have hfind : (reg.find? fun e => e.1 == uuid).isSome := by
      rw [List.find?_isSome]
      exact ⟨(uuid, inst), hmem, by simp⟩
    constructor
    · simp [terminate, hfind]
    · have h2 : ((reg.filter fun e => e.1 != uuid).find? fun e => e.1 == uuid) = none := by
        rw [List.find?_eq_none]
        intro x hx
        have hx2 := (List.mem_filter.mp hx).2
        simpa using hx2
      simp [terminate, hfind, h2]

/-- Concrete authorization code used by the witnesses. -/
def codeW : String := "ABC123"

/-- Concrete exchange token used by the witnesses. -/
def tokenW : String := "pkce-verifier"

/-- Concrete credential record used by the witnesses. -/
def credsW : Credentials := { accountId := 7 }

/-- Concrete auth flow used by the witnesses. -/
def flowW : AuthFlow :=
  { redirect_uri := "https://login.live.com/oauth20_authorize.srf"
    exchangeToken := tokenW }

/-- Concrete redirect-completion URL carrying a code. -/
def urlCodeW : Url :=
  { text := "https://login.live.com/oauth20_desktop.srf?code=ABC123"
    queryPairs := [("code", codeW)] }

/-- Concrete URL off the redirect-completion origin. -/
def urlOffsiteW : Url :=
  { text := "https://example.com/login"
    queryPairs := [] }

/-- Concrete redirect-completion URL carrying no code. -/
def urlNoCodeW : Url :=
  { text := "https://login.live.com/oauth20_desktop.srf?error=denied"
    queryPairs := [("error", "denied")] }

/-- Concrete error text used by the witnesses. -/
def errW : String := "io failure"

/-- Exchange collaborator that always succeeds with `credsW`. -/
def finW : String → AuthFlow → Except String Credentials := fun _ _ => Except.ok credsW

/-- Environment builder for witnesses whose clock starts at zero and advances
exactly one poll interval per tick. -/
def mkEnv (t : Nat → Bool) (u : Nat → Except String Url) (ca : Nat → Option String)
    (cf : Option String) (f : String → AuthFlow → Except String Credentials) : Env :=
  { elapsed := fun n => pollIntervalMs * n
    elapsed_step := fun n => by simp only [pollIntervalMs]; omega
    titleErr := t
    urlAt := u
    closeAt := ca
    closeFinal := cf
    finish := f }

/-- Witness environment: the code-carrying redirect is visible from tick 0. -/
def envSuccessW : Env := mkEnv (fun _ => false) (fun _ => Except.ok urlCodeW) (fun _ => none) none finW

/-- Witness environment: the surface is closed by the user from tick 0. -/
def envCancelW : Env := mkEnv (fun _ => true) (fun _ => Except.ok urlOffsiteW) (fun _ => none) none finW

/-- Witness environment: reading the surface URL fails at tick 0. -/
def envUrlErrW : Env := mkEnv (fun _ => false) (fun _ => Except.error errW) (fun _ => none) none finW

/-- Witness environment: redirect origin reached without a code from tick 0. -/
def envNoCodeW : Env := mkEnv (fun _ => false) (fun _ => Except.ok urlNoCodeW) (fun _ => none) none finW

/-- Witness environment: the deadline has already passed at tick 0 and the
final close fails. -/
def envLateCloseErrW : Env :=
  { elapsed := fun n => deadlineMs + pollIntervalMs * n
    elapsed_step := fun n => by simp only [pollIntervalMs, deadlineMs]; omega
    titleErr := fun _ => false
    urlAt := fun _ => Except.ok urlOffsiteW
    closeAt := fun _ => none
    closeFinal := some errW
    finish := finW }

/-- Witness pre-loop: every step succeeds, no prior window. -/
def preW : PreEnv :=
  { beginFlow := Except.ok flowW
    priorWin := false
    priorCloseErr := none
    parseOk := true
    buildErr := none
    attentionErr := none }

/-- Witness pre-loop: every step succeeds, a prior login window exists. -/
def prePriorW : PreEnv :=
  { beginFlow := Except.ok flowW
    priorWin := true
    priorCloseErr := none
    parseOk := true
    buildErr := none
    attentionErr := none }

theorem auth_login_code_exchange_witness :
    envSuccessW.urlAt 0 = Except.ok urlCodeW ∧
    findCode urlCodeW.queryPairs = some codeW ∧
    authLogin preW envSuccessW =
      (Except.ok (some credsW),
        preEvents preW ++ AuthEvent.opened :: AuthEvent.closedSurface ::
          [AuthEvent.exchanged codeW flowW.exchangeToken]) ∧
    exchangeCalls (authLogin preW envSuccessW).2 = [(codeW, flowW.exchangeToken)] := by
  have h := auth_login_code_exchange preW envSuccessW flowW 0 urlCodeW codeW credsW
    ⟨rfl, rfl, rfl, rfl, rfl⟩
    (fun m hm => absurd hm (Nat.not_lt_zero m))
    (by decide) rfl rfl (by decide) (by decide) rfl rfl
  exact ⟨rfl, by decide, h.1, h.2⟩

/-- Witness environment: the surface stays off the redirect origin forever. -/
def envExpireW : Env := mkEnv (fun _ => false) (fun _ => Except.ok urlOffsiteW) (fun _ => none) none finW

theorem auth_login_expired_witness :
    envExpireW.closeFinal = none ∧
    (∀ m, envExpireW.titleErr m = false) ∧
    (∃ n, deadlineMs ≤ envExpireW.elapsed n ∧
      (∀ m, m < n → envExpireW.elapsed m < deadlineMs) ∧
      authLogin preW envExpireW =
        (Except.ok none, preEvents preW ++ [AuthEvent.opened, AuthEvent.closedSurface])) := by
  refine ⟨rfl, fun m => rfl, ?_⟩
  exact auth_login_expired preW envExpireW flowW ⟨rfl, rfl, rfl, rfl, rfl⟩
    (fun m => rfl) (fun m => ⟨urlOffsiteW, rfl, by decide⟩) rfl

theorem auth_login_cancelled_witness :
    envCancelW.titleErr 0 = true ∧
    envCancelW.elapsed 0 < deadlineMs ∧
    authLogin preW envCancelW = (Except.ok none, preEvents preW ++ [AuthEvent.opened]) ∧
    exchangeCalls (authLogin preW envCancelW).2 = [] := by
  have h := auth_login_cancelled preW envCancelW flowW 0
    ⟨rfl, rfl, rfl, rfl, rfl⟩
    (fun m hm => absurd hm (Nat.not_lt_zero m))
    (by decide) rfl
  exact ⟨rfl, by decide, h.1, h.2⟩

theorem auth_login_error_discipline_witness :
    envUrlErrW.urlAt 0 = Except.error errW ∧
    envUrlErrW.titleErr 0 = false ∧
    (authLogin preW envUrlErrW).1 = Except.error errW := by
  have h := (auth_login_error_discipline preW envUrlErrW).2.1 flowW 0 errW
    ⟨rfl, rfl, rfl, rfl, rfl⟩
    (fun m hm => absurd hm (Nat.not_lt_zero m))
    (by decide) rfl rfl
  exact ⟨rfl, rfl, h⟩

theorem auth_login_singleton_surface_witness :
    prePriorW.priorWin = true ∧
    AuthEvent.opened ∈ (authLogin prePriorW envCancelW).2 ∧
    ∃ rest, (authLogin prePriorW envCancelW).2 =
      AuthEvent.closedPrior :: AuthEvent.opened :: rest := by
  have hloop : authLoop envCancelW flowW 0 = (Except.ok none, []) :=
    authLoop_eq_some envCancelW flowW 0 _
      (tickOutcome_cancel envCancelW flowW 0 (by decide) rfl)
  have hval : authLogin prePriorW envCancelW =
      (Except.ok none, [AuthEvent.closedPrior, AuthEvent.opened]) := by
    rw [authLogin_of_preOk prePriorW envCancelW flowW ⟨rfl, rfl, rfl, rfl, rfl⟩, hloop]
    rfl
  have hopen : AuthEvent.opened ∈ (authLogin prePriorW envCancelW).2 := by
    rw [hval]
    simp
  exact ⟨rfl, hopen, auth_login_singleton_surface prePriorW envCancelW rfl hopen⟩

theorem auth_login_redirect_without_code_witness :
    envNoCodeW.urlAt 0 = Except.ok urlNoCodeW ∧
    rustStartsWith urlNoCodeW.text redirectOrigin = true ∧
    findCode urlNoCodeW.queryPairs = none ∧
    tickOutcome envNoCodeW flowW 0 = none ∧
    authLoop envNoCodeW flowW 0 = authLoop envNoCodeW flowW 1 := by
  have h := auth_login_redirect_without_code envNoCodeW flowW 0 urlNoCodeW
    (by decide) rfl rfl (by decide) (by decide)
  exact ⟨rfl, by decide, by decide, h.1, h.2⟩

theorem auth_login_expiry_close_witness :
    deadlineMs ≤ envLateCloseErrW.elapsed 0 ∧
    envLateCloseErrW.closeFinal = some errW ∧
    authLogin preW envLateCloseErrW =
      (Except.error errW, preEvents preW ++ [AuthEvent.opened]) := by
  have h := auth_login_expiry_close preW envLateCloseErrW flowW 0
    ⟨rfl, rfl, rfl, rfl, rfl⟩
    (fun m hm => absurd hm (Nat.not_lt_zero m))
    (by decide)
  exact ⟨by decide, rfl, h.2 errW rfl⟩

/-- Concrete process handle with no available OS pid. -/
def handleNoPidW : ProcessHandle := { uuid := 3, current_child := { id := none } }

theorem run_cluster_pid_sentinel_witness :
    run_cluster (Except.ok ()) (Except.ok handleNoPidW) = Except.ok (3, 0) ∧
    (0 = 0 ↔ handleNoPidW.current_child.id = none) := by
  have h := run_cluster_pid_sentinel (Except.ok ()) handleNoPidW 3 0 rfl
    (fun k hk => by simp [handleNoPidW] at hk)
  exact ⟨rfl, h.2.2⟩

/-- Concrete running instance for the registry witness. -/
def instW : RunningInstance := { clusterPath := "cluster-a", pid := 111 }

/-- Concrete one-entry registry for the registry witness. -/
def regW : List (Nat × RunningInstance) := [(1, instW)]

theorem terminate_notFound_idempotent_witness :
    terminate regW 2 = (Except.error RegError.notFound, regW) ∧
    (terminate regW 1).1 = Except.ok () ∧
    (terminate (terminate regW 1).2 1).1 = Except.error RegError.notFound := by
  have h2 := terminate_notFound_idempotent regW 2
  have h1 := terminate_notFound_idempotent regW 1
  refine ⟨h2.1 (by decide), ?_, ?_⟩
  · exact (h1.2 instW (by simp [regW])).1
  · exact (h1.2 instW (by simp [regW])).2
